import Mathlib

/-!
Verification development for the ThermalNetwork district sizing tool.

The definitions below are shallow embeddings of the Python sources in
`thermalnetwork/`: equipment load models (`heat_pump.py`, `pump.py`),
the waste-heat adjustment and the two GHE load-allocation strategies
(`network.py`), the load resampling cascade (`network.py`), the loop
reordering of connected features (`network.py`), and the hydraulic pipe
sizer (`pipe.py`, `utilities.py`).  Machine floats are modelled as exact
rationals where the code is pure field arithmetic, and as real numbers
where the code uses `log`/`exp`.
-/

namespace ThermalNetwork

/-- Modelled from the spec: `HOURS_IN_YEAR` is the package-level constant
(8760), imported by `network.py` from the package `__init__`, which is not
among the provided sources. -/
def HOURS_IN_YEAR : ℕ := 8760

/-! ## Heat pump (`heat_pump.py`) -/

/-- `HeatPump.__init__`: stores the cooling and heating COPs. -/
structure HeatPump where
  cop_c : ℚ
  cop_h : ℚ

/-- `HeatPump.calc_src_side_load`: source-side load of a space load.
Non-negative space loads are heating (`load * (1 - 1/cop_h)`),
negative space loads are cooling (`load * (1 + 1/cop_c)`). -/
def HeatPump.calc_src_side_load (hp : HeatPump) (space_load : ℚ) : ℚ :=
  if 0 ≤ space_load then
    space_load * (1 - 1 / hp.cop_h)
  else
    space_load * (1 + 1 / hp.cop_c)

/-- `HeatPump.get_loads`: maps `calc_src_side_load` over a load list. -/
def HeatPump.get_loads (hp : HeatPump) (loads : List ℚ) : List ℚ :=
  loads.map hp.calc_src_side_load

/-! ## Pump (`pump.py`) -/

/-- `Pump.__init__`: design point and motor parameters. -/
structure Pump where
  des_flow : ℚ
  des_head : ℚ
  motor_efficiency : ℚ
  motor_inefficiency_to_fluid : ℚ

/-- `Pump.get_loads`: constant parasitic-heat array.  The code returns
`hydraulic_power + pump_heat_to_fluid` in every slot, where
`hydraulic_power = des_flow * des_head`,
`pump_heat = hydraulic_power * (1 - motor_efficiency)` and
`pump_heat_to_fluid = pump_heat * motor_inefficiency_to_fluid`. -/
def Pump.get_loads (p : Pump) (num_loads : ℕ) : List ℚ :=
  let hydraulic_power := p.des_flow * p.des_head
  let pump_heat := hydraulic_power * (1 - p.motor_efficiency)
  let pump_heat_to_fluid := pump_heat * p.motor_inefficiency_to_fluid
  List.replicate num_loads (hydraulic_power + pump_heat_to_fluid)

/-! ## Waste heat adjustment (`network.py`, `Network.add_waste_heat_sources`) -/

/-- The ways the `heat_source_rate` entry of the system parameters can
present itself to `Network.add_waste_heat_sources`: absent, a string that
is not a valid number, a constant rate in Watts, or a `.mos` schedule file
(here abstracted to its hourly Watts array after resampling). -/
inductive HeatSourceRate where
  | missing : HeatSourceRate
  | invalidNumber : HeatSourceRate
  | constantRate (w : ℚ) : HeatSourceRate
  | scheduleFile (w : ℕ → ℚ) : HeatSourceRate

/-- `Network.add_waste_heat_sources`: a missing or malformed rate leaves
the loads unchanged (after logging); a constant or schedule rate replaces
each hour's load by `max (load - waste_heat) 0` (`np.maximum(... , 0)`). -/
def add_waste_heat_sources (rate : HeatSourceRate) (total_network_loads : ℕ → ℚ) : ℕ → ℚ :=
  match rate with
  | .missing => total_network_loads
  | .invalidNumber => total_network_loads
  | .constantRate w => fun h => max (total_network_loads h - w) 0
  | .scheduleFile w => fun h => max (total_network_loads h - w h) 0

/-! ## Network components and AREA_PROPORTIONAL sizing (`network.py`) -/

/-- `ComponentType` from `enums.py`. -/
inductive ComponentType where
  | ENERGYTRANSFERSTATION : ComponentType
  | FAN : ComponentType
  | GROUNDHEATEXCHANGER : ComponentType
  | HEATPUMP : ComponentType
  | PUMP : ComponentType
deriving DecidableEq

/-- A component of `Network.network`: its type tag, its footprint `area`
(meaningful for GHEs), and its resolved hourly `get_loads()` array,
indexed by hour. -/
structure Component where
  comp_type : ComponentType
  area : ℚ
  loads : ℕ → ℚ

/-- The `device.comp_type == ComponentType.GROUNDHEATEXCHANGER` test. -/
def isGhe (c : Component) : Bool := c.comp_type = ComponentType.GROUNDHEATEXCHANGER

@[simp] lemma isGhe_pump (a : ℚ) (f : ℕ → ℚ) :
    isGhe ⟨ComponentType.PUMP, a, f⟩ = false := rfl

@[simp] lemma isGhe_ets (a : ℚ) (f : ℕ → ℚ) :
    isGhe ⟨ComponentType.ENERGYTRANSFERSTATION, a, f⟩ = false := rfl

@[simp] lemma isGhe_fan (a : ℚ) (f : ℕ → ℚ) :
    isGhe ⟨ComponentType.FAN, a, f⟩ = false := rfl

@[simp] lemma isGhe_ghe (a : ℚ) (f : ℕ → ℚ) :
    isGhe ⟨ComponentType.GROUNDHEATEXCHANGER, a, f⟩ = true := rfl

/-- `total_ghe_area` accumulated over `ghe_indexes` in
`Network.size_area_proportional`. -/
def total_ghe_area (network : List Component) : ℚ :=
  ((network.filter isGhe).map Component.area).sum

/-- `total_network_loads` of `Network.size_area_proportional`: the
elementwise sum of `get_loads()` over every non-GHE component. -/
def total_network_loads (network : List Component) (h : ℕ) : ℚ :=
  ((network.filter (fun c => ¬ isGhe c)).map (fun c => c.loads h)).sum

/-- The ground-load array `Network.size_area_proportional` assigns a GHE:
`network_load_per_area = adjusted_total / total_ghe_area` scaled by the
GHE's own area (`np.array(network_load_per_area) * ghe_area`). -/
def area_proportional_assigned_load (adjusted_total : ℕ → ℚ) (totalArea ghe_area : ℚ)
    (h : ℕ) : ℚ :=
  adjusted_total h / totalArea * ghe_area

/-- The list of assigned GHE load arrays produced by
`Network.size_area_proportional` (loop over `ghe_indexes`). -/
def size_area_proportional (network : List Component) (rate : HeatSourceRate) :
    List (ℕ → ℚ) :=
  (network.filter isGhe).map fun c =>
    area_proportional_assigned_load
      (add_waste_heat_sources rate (total_network_loads network))
      (total_ghe_area network) c.area

/-! ## UPSTREAM sizing (`network.py`, `Network.size_to_upstream_equipment`) -/

/-- Python slice `l[a:b]`. -/
def pySlice {α : Type} (l : List α) (a b : ℕ) : List α := (l.take b).drop a

/-- `for i, device in enumerate(self.network): if GHE: ghe_indexes.append(i)`,
with enumeration starting at the given offset. -/
def ghe_indexes_aux : List Component → ℕ → List ℕ
  | [], _ => []
  | c :: rest, i =>
    if isGhe c then i :: ghe_indexes_aux rest (i + 1) else ghe_indexes_aux rest (i + 1)

/-- The `ghe_indexes` list of `Network.size_to_upstream_equipment`. -/
def ghe_indexes (network : List Component) : List ℕ := ghe_indexes_aux network 0

/-- The `devices_before_ghe` slices: `network[:ghe_index]` for the first
GHE, `network[ghe_indexes[i-1] + 1 : ghe_index]` for later GHEs.  The
`Option ℕ` argument carries the previous GHE index (`none` before the
first GHE). -/
def upstream_segments_aux (network : List Component) :
    Option ℕ → List ℕ → List (List Component)
  | _, [] => []
  | none, i :: rest =>
      pySlice network 0 i :: upstream_segments_aux network (some i) rest
  | some p, i :: rest =>
      pySlice network (p + 1) i :: upstream_segments_aux network (some i) rest

/-- All `devices_before_ghe` segments of `size_to_upstream_equipment`,
in loop order. -/
def upstream_segments (network : List Component) : List (List Component) :=
  upstream_segments_aux network none (ghe_indexes network)

/-- The `ghe_load` arrays assigned by `Network.size_to_upstream_equipment`:
one per GHE, the elementwise sum of `get_loads()` over its segment. -/
def size_to_upstream_equipment (network : List Component) : List (ℕ → ℚ) :=
  (upstream_segments network).map (fun seg h => (seg.map (fun c => c.loads h)).sum)

/-- Each segment followed by its own GHE position, concatenated in loop
order: the portion of the network covered by `size_to_upstream_equipment`. -/
def upstream_covered (network : List Component) : Option ℕ → List ℕ → List Component
  | _, [] => []
  | none, i :: rest =>
      pySlice network 0 i ++ pySlice network i (i + 1)
        ++ upstream_covered network (some i) rest
  | some p, i :: rest =>
      pySlice network (p + 1) i ++ pySlice network i (i + 1)
        ++ upstream_covered network (some i) rest

lemma pySlice_append {α : Type} (l : List α) (a b c : ℕ) (hab : a ≤ b) (hbc : b ≤ c) :
    pySlice l a b ++ pySlice l b c = pySlice l a c := by
  unfold pySlice
  rw [List.drop_take, List.drop_take, List.drop_take]
  have h1 : l.drop b = (l.drop a).drop (b - a) := by
    rw [List.drop_drop]
    congr 1
    omega
  rw [h1, ← List.take_add]
  congr 1
  omega

lemma ghe_indexes_aux_bounds :
    ∀ (net : List Component) (i : ℕ), ∀ j ∈ ghe_indexes_aux net i, i ≤ j ∧ j < i + net.length
  | [], i => by simp [ghe_indexes_aux]
  | c :: rest, i => by
    intro j hj
    rw [ghe_indexes_aux] at hj
    by_cases hc : isGhe c
    · rw [if_pos hc] at hj
      rcases List.mem_cons.mp hj with h | h
      · subst h
        simp
      · have := ghe_indexes_aux_bounds rest (i + 1) j h
        constructor <;> [omega; (simp only [List.length_cons]; omega)]
    · rw [if_neg hc] at hj
      have := ghe_indexes_aux_bounds rest (i + 1) j hj
      constructor <;> [omega; (simp only [List.length_cons]; omega)]

lemma ghe_indexes_aux_chain_from :
    ∀ (net : List Component) (i p : ℕ), p < i →
      List.Chain (· < ·) p (ghe_indexes_aux net i)
  | [], i, p => by
    intro _
    simp [ghe_indexes_aux]
  | c :: rest, i, p => by
    intro hpi
    rw [ghe_indexes_aux]
    by_cases hc : isGhe c
    · rw [if_pos hc]
      exact List.Chain.cons hpi (ghe_indexes_aux_chain_from rest (i + 1) i (by omega))
    · rw [if_neg hc]
      exact ghe_indexes_aux_chain_from rest (i + 1) p (by omega)

lemma ghe_indexes_aux_chain' :
    ∀ (net : List Component) (i : ℕ), List.Chain' (· < ·) (ghe_indexes_aux net i)
  | [], i => by simp [ghe_indexes_aux]
  | c :: rest, i => by
    rw [ghe_indexes_aux]
    by_cases hc : isGhe c
    · rw [if_pos hc]
      exact ghe_indexes_aux_chain_from rest (i + 1) i (by omega)
    · rw [if_neg hc]
      exact ghe_indexes_aux_chain' rest (i + 1)

lemma upstream_covered_some (net : List Component) :
    ∀ (idxs : List ℕ) (p L : ℕ), List.Chain (· < ·) p idxs →
      idxs.getLast? = some L →
      upstream_covered net (some p) idxs = pySlice net (p + 1) (L + 1)
  | [], p, L => by
    intro _ h
    simp at h
  | [i], p, L => by
    intro hch hL
    have hLi : i = L := by simpa using hL
    subst hLi
    have hpi : p < i := List.rel_of_chain_cons hch
    rw [show upstream_covered net (some p) [i]
        = pySlice net (p + 1) i ++ pySlice net i (i + 1) ++ upstream_covered net (some i) []
        from rfl]
    rw [show upstream_covered net (some i) ([] : List ℕ) = [] from rfl, List.append_nil]
    exact pySlice_append net (p + 1) i (i + 1) (by omega) (by omega)
  | i :: j :: rest, p, L => by
    intro hch hL
    rcases hch with _ | ⟨hpi, hch'⟩
    have hL' : (j :: rest).getLast? = some L := by simpa using hL
    have ih := upstream_covered_some net (j :: rest) i L hch' hL'
    have hiL : i < L := by
      rw [List.chain_iff_pairwise] at hch'
      refine (List.pairwise_cons.mp hch').1 L ?_
      have := List.mem_getLast?_eq_getLast (l := j :: rest) (x := L) (by simpa using hL')
      obtain ⟨hne, hgl⟩ := this
      rw [hgl]
      exact List.getLast_mem hne
    rw [show upstream_covered net (some p) (i :: j :: rest)
        = pySlice net (p + 1) i ++ pySlice net i (i + 1)
            ++ upstream_covered net (some i) (j :: rest)
        from rfl]
    rw [ih, pySlice_append net (p + 1) i (i + 1) (by omega) (by omega),
      pySlice_append net (p + 1) (i + 1) (L + 1) (by omega) (by omega)]

/-! ## Loop reordering (`network.py`, `Network.reorder_connected_features`) -/

/-- A connected feature as assembled by `get_connected_features`: its id,
its `district_system_type` (present only for district systems), and
whether its geojson properties carry a loop-start flag — a property the
reordering code never reads. -/
structure GeoFeature where
  id : String
  district_system_type : Option String
  start_loop : Bool
deriving DecidableEq

/-- The scan in `reorder_connected_features`:
`for i, feature in enumerate(features): if feature.get("district_system_type")
== "Ground Heat Exchanger": start_loop_index = i; break`. -/
def find_start_loop_index : List GeoFeature → Option ℕ
  | [] => none
  | f :: rest =>
    if f.district_system_type = some "Ground Heat Exchanger" then some 0
    else (find_start_loop_index rest).map (· + 1)

/-- `Network.reorder_connected_features`: rotate the list so that the
first feature with `district_system_type == "Ground Heat Exchanger"` is
element 0 (`features[start_loop_index:] + features[:start_loop_index]`);
raise `ValueError` when none exists. -/
def reorder_connected_features (features : List GeoFeature) :
    Except String (List GeoFeature) :=
  match find_start_loop_index features with
  | some i => .ok (features.drop i ++ features.take i)
  | none => .error "No Ground Heat Exchanger was found in the list."

lemma find_start_loop_index_some :
    ∀ (l : List GeoFeature) (i : ℕ), find_start_loop_index l = some i →
      i < l.length ∧
      (∀ f ∈ l.take i, f.district_system_type ≠ some "Ground Heat Exchanger") ∧
      ∀ f, l.get? i = some f → f.district_system_type = some "Ground Heat Exchanger"
  | [], i => by simp [find_start_loop_index]
  | f :: rest, i => by
    intro hi
    rw [find_start_loop_index] at hi
    by_cases hf : f.district_system_type = some "Ground Heat Exchanger"
    · rw [if_pos hf] at hi
      have : i = 0 := by simpa using hi.symm
      subst this
      refine ⟨by simp, by simp, ?_⟩
      intro g hg
      simp at hg
      rw [← hg]
      exact hf
    · rw [if_neg hf] at hi
      rcases hj : find_start_loop_index rest with _ | j
      · rw [hj] at hi
        simp at hi
      · rw [hj] at hi
        simp only [Option.map_some'] at hi
        obtain ⟨hlt, htake, hget⟩ := find_start_loop_index_some rest j hj
        have hij : i = j + 1 := by simpa using hi.symm
        subst hij
        refine ⟨by simp only [List.length_cons]; omega, ?_, ?_⟩
        · intro g hg
          rw [List.take_succ_cons] at hg
          rcases List.mem_cons.mp hg with h | h
          · subst h
            exact hf
          · exact htake g h
        · intro g hg
          exact hget g (by simpa using hg)

lemma find_start_loop_index_none :
    ∀ (l : List GeoFeature), find_start_loop_index l = none →
      ∀ f ∈ l, f.district_system_type ≠ some "Ground Heat Exchanger"
  | [] => by simp
  | f :: rest => by
    intro hn g hg
    rw [find_start_loop_index] at hn
    by_cases hf : f.district_system_type = some "Ground Heat Exchanger"
    · rw [if_pos hf] at hn
      simp at hn
    · rw [if_neg hf] at hn
      simp only [Option.map_eq_none'] at hn
      rcases List.mem_cons.mp hg with h | h
      · subst h
        exact hf
      · exact find_start_loop_index_none rest hn g h

/-! ## Hourly resampling (`network.py`, `Network.make_loads_hourly`) -/

/-- Pandas `interpolate(method="linear")` over an hourly index, for
hour-aligned samples: between two bracketing samples the value is linear
in time; past the last sample the last value is held.  The first argument
is the most recent sample at or before `t`. -/
def interpValue : (ℕ × ℚ) → List (ℕ × ℚ) → ℕ → ℚ
  | (_, v0), [], _ => v0
  | (t0, v0), (t1, v1) :: rest, t =>
    if t ≤ t0 then v0
    else if t ≤ t1 then
      v0 + (v1 - v0) * (((t : ℚ) - (t0 : ℚ)) / ((t1 : ℚ) - (t0 : ℚ)))
    else interpValue (t1, v1) rest t

/-- `resample("h").interpolate(method="linear")` applied to a series of
hour-aligned `(hour, value)` samples: one value per hour from the first
to the last sample time. -/
def resample_hourly : List (ℕ × ℚ) → List ℚ
  | [] => []
  | (t0, v0) :: rest =>
    (List.range ((((t0, v0) :: rest).getLastD (t0, v0)).1 - t0 + 1)).map
      (fun k => interpValue (t0, v0) rest (t0 + k))

/-- `Network.make_loads_hourly` on one load column: duplicate the last
row one day (24 h) past the series end, resample to hourly values by
linear interpolation, and keep only the first `HOURS_IN_YEAR` rows
(`iloc[:HOURS_IN_YEAR]`). -/
def make_loads_hourly : List (ℕ × ℚ) → List ℚ
  | [] => []
  | p :: rest =>
    (resample_hourly ((p :: rest)
      ++ [(((p :: rest).getLastD p).1 + 24, ((p :: rest).getLastD p).2)])).take HOURS_IN_YEAR

/-! ## Pipe hydraulics (`pipe.py`, `utilities.py`)

Floats become real numbers here because the code uses `log`/`exp`; the
fluid's density and viscosity at the fixed design temperature are fields
of the pipe model, since the Fluid Property Provider is an external
collaborator. -/

/-- `smoothing_function` from `utilities.py`: sigmoid interpolation.
Below `x_low_limit` return `y_low_limit`, above `x_high_limit` return
`y_high_limit`; in between map `x` affinely onto `[-10, 10]` (`s_x`),
apply the sigmoid `s_y = 1 / (1 + exp(-s_x))` and interpolate
`s_y * (y_high_limit - y_low_limit) + y_low_limit`. -/
noncomputable def smoothing_function (x x_low_limit x_high_limit y_low_limit y_high_limit : ℝ) :
    ℝ :=
  if x < x_low_limit then y_low_limit
  else if x > x_high_limit then y_high_limit
  else
    (1 / (1 + Real.exp (-((x - x_low_limit) / (x_high_limit - x_low_limit) * (10 - (-10))
        + (-10)))))
      * (y_high_limit - y_low_limit) + y_low_limit

/-- `Pipe.laminar_friction_factor`: `64 / re`. -/
noncomputable def laminar_friction_factor (re : ℝ) : ℝ := 64 / re

/-- `Pipe.turbulent_friction_factor` (Petukhov):
`(0.79 * ln(re) - 1.64) ** (-2.0)`. -/
noncomputable def turbulent_friction_factor (re : ℝ) : ℝ :=
  ((0.79 * Real.log re - 1.64) ^ 2)⁻¹

/-- `Pipe.friction_factor`: laminar below `Re = 2000`, turbulent above
`Re = 4000`, sigmoid blend of the two values at the given `Re` in
between. -/
noncomputable def friction_factor (re : ℝ) : ℝ :=
  if re < 2000 then laminar_friction_factor re
  else if re > 4000 then turbulent_friction_factor re
  else smoothing_function re 2000 4000 (laminar_friction_factor re)
    (turbulent_friction_factor re)

/-- The `Pipe` value object: dimension ratio, length, and the fluid's
density and viscosity at the fixed design temperature. -/
structure Pipe where
  dimension_ratio : ℝ
  length : ℝ
  density : ℝ
  viscosity : ℝ

/-- `Pipe.set_diameters`: the inner diameter corresponding to an outer
diameter, `outer_dia * (1 - 2 / dimension_ratio)`. -/
noncomputable def inner_diameter (p : Pipe) (outer_dia : ℝ) : ℝ :=
  outer_dia * (1 - 2 / p.dimension_ratio)

/-- `Pipe.vol_flow_rate_to_velocity`: mean velocity from volumetric flow
through the inner cross-section. -/
noncomputable def vol_flow_rate_to_velocity (di vol_flow_rate : ℝ) : ℝ :=
  vol_flow_rate / (Real.pi * di ^ 2 / 4)

/-- `Pipe.vol_flow_rate_to_re`: `rho * v * D / mu`. -/
noncomputable def vol_flow_rate_to_re (p : Pipe) (di vol_flow_rate : ℝ) : ℝ :=
  p.density * vol_flow_rate_to_velocity di vol_flow_rate * di / p.viscosity

/-- `Pipe.pressure_loss` (Darcy-Weisbach), with the current inner
diameter `di` passed explicitly: returns 0 for non-positive flow, else
`f * (L / D) * (rho * v^2 / 2)`. -/
noncomputable def pressure_loss (p : Pipe) (di vol_flow_rate : ℝ) : ℝ :=
  if vol_flow_rate ≤ 0 then 0
  else
    friction_factor (vol_flow_rate_to_re p di vol_flow_rate) * p.length / di
      * (p.density * vol_flow_rate_to_velocity di vol_flow_rate ^ 2 / 2)

/-- `utilities.inch_to_m`. -/
noncomputable def inch_to_m (x_inch : ℝ) : ℝ := x_inch * 0.0254

/-- `Pipe.pressure_loss_per_length`: set diameters from the outer
diameter, then `pressure_loss / length`. -/
noncomputable def pressure_loss_per_length (p : Pipe) (vol_flow_rate outside_diameter : ℝ) : ℝ :=
  pressure_loss p (inner_diameter p outside_diameter) vol_flow_rate / p.length

/-- The `ip_pipes["outside_diameter"]` catalog of
`Pipe.size_hydraulic_diameter` (inches, ascending). -/
noncomputable def ip_pipes_outside_diameter : List ℝ :=
  [1.05, 1.315, 1.66, 1.90, 2.375, 3.50, 4.50, 5.563, 6.625, 7.125, 8.625, 10.75,
   12.75, 14.00, 16.00, 18.00, 20.00, 22.00, 24.00, 26.00, 28.00, 30.00, 32.00,
   34.00, 36.00, 42.00, 48.00, 54.00, 63.00]

/-- The discrete-mode loop of `Pipe.size_hydraulic_diameter`: scan the
catalog and return the inner diameter of the first size whose per-length
pressure loss is strictly below the target. -/
noncomputable def discrete_size_scan (p : Pipe) (vol_flow_rate target : ℝ) :
    List ℝ → Option ℝ
  | [] => none
  | d :: rest =>
    if pressure_loss_per_length p vol_flow_rate (inch_to_m d) < target then
      some (inner_diameter p (inch_to_m d))
    else discrete_size_scan p vol_flow_rate target rest

/-- `Pipe.size_hydraulic_diameter` in discrete mode: the scan result, or
(after a logged warning) the inner diameter of the largest catalog size
when no size qualifies. -/
noncomputable def size_hydraulic_diameter_discrete (p : Pipe) (vol_flow_rate target : ℝ) : ℝ :=
  match discrete_size_scan p vol_flow_rate target ip_pipes_outside_diameter with
  | some di => di
  | none => inner_diameter p (inch_to_m (ip_pipes_outside_diameter.getLastD 0))

/-- The continuous-mode bisection loop of `Pipe.size_hydraulic_diameter`,
with fuel making the unbounded `while` loop a total function: each step
tests the midpoint outer diameter; the loop exits (returning the tested
diameter) when its per-length pressure loss is within the 0.1 Pa/m
tolerance of the target, else it halves the bracket and repeats. -/
noncomputable def bisection_search (p : Pipe) (vol_flow_rate target : ℝ) :
    ℕ → ℝ → ℝ → Option ℝ
  | 0, _, _ => none
  | fuel + 1, low_od, high_od =>
    if |pressure_loss_per_length p vol_flow_rate ((low_od + high_od) / 2) - target| ≤ 0.1 then
      some ((low_od + high_od) / 2)
    else if pressure_loss_per_length p vol_flow_rate ((low_od + high_od) / 2) - target > 0 then
      bisection_search p vol_flow_rate target fuel ((low_od + high_od) / 2) high_od
    else
      bisection_search p vol_flow_rate target fuel low_od ((low_od + high_od) / 2)

lemma smoothing_function_mem (x lo hi ylo yhi : ℝ) :
    min ylo yhi ≤ smoothing_function x lo hi ylo yhi ∧
    smoothing_function x lo hi ylo yhi ≤ max ylo yhi := by
  rw [smoothing_function]
  split_ifs with h1 h2
  · exact ⟨min_le_left _ _, le_max_left _ _⟩
  · exact ⟨min_le_right _ _, le_max_right _ _⟩
  · set e := Real.exp (-((x - lo) / (hi - lo) * (10 - (-10)) + (-10))) with he
    have hep : 0 < e := Real.exp_pos _
    have hp : 0 < 1 + e := by linarith
    have hs0 : 0 < 1 / (1 + e) := by positivity
    have hs1 : 1 / (1 + e) ≤ 1 := by
      rw [div_le_one hp]
      linarith
    constructor
    · rcases le_total ylo yhi with hy | hy
      · rw [min_eq_left hy]
        nlinarith
      · rw [min_eq_right hy]
        nlinarith
    · rcases le_total ylo yhi with hy | hy
      · rw [max_eq_right hy]
        nlinarith
      · rw [max_eq_left hy]
        nlinarith

lemma laminar_friction_factor_nonneg (re : ℝ) (h : 0 ≤ re) :
    0 ≤ laminar_friction_factor re :=
  div_nonneg (by norm_num) h

lemma turbulent_friction_factor_nonneg (re : ℝ) : 0 ≤ turbulent_friction_factor re :=
  inv_nonneg.mpr (sq_nonneg _)

lemma friction_factor_nonneg (re : ℝ) (h : 0 ≤ re) : 0 ≤ friction_factor re := by
  rw [friction_factor]
  split_ifs with h1 h2
  · exact laminar_friction_factor_nonneg re h
  · exact turbulent_friction_factor_nonneg re
  · have hmin := (smoothing_function_mem re 2000 4000 (laminar_friction_factor re)
      (turbulent_friction_factor re)).1
    have h0 : 0 ≤ min (laminar_friction_factor re) (turbulent_friction_factor re) :=
      le_min (laminar_friction_factor_nonneg re h) (turbulent_friction_factor_nonneg re)
    linarith

lemma log_4000_gt_three : (3:ℝ) < Real.log 4000 := by
  rw [Real.lt_log_iff_exp_lt (by norm_num : (0:ℝ) < 4000)]
  have h1 : Real.exp 3 = Real.exp 1 ^ (3:ℕ) := by
    rw [← Real.exp_nat_mul]
    norm_num
  rw [h1]
  have h2 : Real.exp 1 < 2.7182818286 := Real.exp_one_lt_d9
  have h3 : (0:ℝ) < Real.exp 1 := Real.exp_pos 1
  have h4 : Real.exp 1 ^ (3:ℕ) < 2.7182818286 ^ (3:ℕ) :=
    pow_lt_pow_left₀ h2 h3.le (by norm_num)
  have h5 : (2.7182818286:ℝ) ^ (3:ℕ) < 4000 := by norm_num
  linarith

/-! ## Theorems -/

/-- **C3**: `calc_src_side_load` applies `l * (1 - 1/cop_h)` to
non-negative loads and `l * (1 + 1/cop_c)` to negative loads; for a
positive load and positive COPs the heating result is strictly below the
load, the cooling result's magnitude strictly exceeds the load, and both
results are strictly monotonic in the respective COP. -/
theorem calc_src_side_load_spec (cop_c cop_h cop_c' cop_h' load : ℚ)
    (hl : 0 < load) (hc : 0 < cop_c) (hh : 0 < cop_h)
    (hc' : cop_c < cop_c') (hh' : cop_h < cop_h') :
    (∀ l : ℚ, 0 ≤ l →
      HeatPump.calc_src_side_load ⟨cop_c, cop_h⟩ l = l * (1 - 1 / cop_h)) ∧
    (∀ l : ℚ, l < 0 →
      HeatPump.calc_src_side_load ⟨cop_c, cop_h⟩ l = l * (1 + 1 / cop_c)) ∧
    HeatPump.calc_src_side_load ⟨cop_c, cop_h⟩ load < load ∧
    load < |HeatPump.calc_src_side_load ⟨cop_c, cop_h⟩ (-load)| ∧
    HeatPump.calc_src_side_load ⟨cop_c, cop_h⟩ load
      < HeatPump.calc_src_side_load ⟨cop_c, cop_h'⟩ load ∧
    HeatPump.calc_src_side_load ⟨cop_c, cop_h⟩ (-load)
      < HeatPump.calc_src_side_load ⟨cop_c', cop_h⟩ (-load) := by
  have hh'' : (0:ℚ) < cop_h' := hh.trans hh'
  have hc'' : (0:ℚ) < cop_c' := hc.trans hc'
  have hnl : ¬ (0 ≤ -load) := by linarith
  refine ⟨fun l hl0 => if_pos hl0, fun l hl0 => if_neg (by linarith), ?_, ?_, ?_, ?_⟩
  · rw [HeatPump.calc_src_side_load, if_pos hl.le]
    have h1 : 0 < 1 / cop_h := by positivity
    nlinarith
  · rw [HeatPump.calc_src_side_load, if_neg hnl]
    have h1 : 0 < 1 / cop_c := by positivity
    have hneg : -load * (1 + 1 / cop_c) < 0 := by nlinarith
    rw [abs_of_neg hneg]
    nlinarith
  · rw [HeatPump.calc_src_side_load, HeatPump.calc_src_side_load, if_pos hl.le, if_pos hl.le]
    have h1 : 1 / cop_h' < 1 / cop_h := by
      exact one_div_lt_one_div_of_lt hh hh'
    nlinarith
  · rw [HeatPump.calc_src_side_load, HeatPump.calc_src_side_load, if_neg hnl, if_neg hnl]
    have h1 : 1 / cop_c' < 1 / cop_c := by
      exact one_div_lt_one_div_of_lt hc hc'
    nlinarith

/-- Witness for C3 at `cop_c = 2`, `cop_h = 3`, `cop_c' = 3`,
`cop_h' = 4`, `load = 5`. -/
theorem calc_src_side_load_spec_witness :
    (∀ l : ℚ, 0 ≤ l →
      HeatPump.calc_src_side_load ⟨2, 3⟩ l = l * (1 - 1 / 3)) ∧
    (∀ l : ℚ, l < 0 →
      HeatPump.calc_src_side_load ⟨2, 3⟩ l = l * (1 + 1 / 2)) ∧
    HeatPump.calc_src_side_load ⟨2, 3⟩ 5 < 5 ∧
    (5:ℚ) < |HeatPump.calc_src_side_load ⟨2, 3⟩ (-5)| ∧
    HeatPump.calc_src_side_load ⟨2, 3⟩ 5 < HeatPump.calc_src_side_load ⟨2, 4⟩ 5 ∧
    HeatPump.calc_src_side_load ⟨2, 3⟩ (-5) < HeatPump.calc_src_side_load ⟨3, 3⟩ (-5) :=
  calc_src_side_load_spec 2 3 3 4 5 (by norm_num) (by norm_num) (by norm_num)
    (by norm_num) (by norm_num)

/-- **C4 counterexample**: the claim says each element of
`Pump.get_loads` equals `des_flow * des_head * (1 - motor_efficiency) *
motor_inefficiency_to_fluid_fraction`.  At `des_flow = 1`,
`des_head = 1`, `motor_efficiency = 9/10`, fraction `1/2`, the code
returns `[21/20]`, not `[1/20]`: the hydraulic power itself is added to
the heat-to-fluid term. -/
theorem pump_get_loads_counterexample :
    Pump.get_loads ⟨1, 1, 9/10, 1/2⟩ 1 ≠ [1 * 1 * (1 - 9/10) * (1/2)] := by
  rw [Pump.get_loads]
  simp only [List.replicate, ne_eq, List.cons.injEq, and_true]
  norm_num

/-- **C4 (amended)**: `Pump.get_loads n` is a constant array of length
`n` whose every element equals
`des_flow * des_head + des_flow * des_head * (1 - motor_efficiency) *
motor_inefficiency_to_fluid` — the hydraulic power plus the motor heat
entering the fluid. -/
theorem pump_get_loads_spec (p : Pump) (n : ℕ) :
    (p.get_loads n).length = n ∧
    ∀ x ∈ p.get_loads n,
      x = p.des_flow * p.des_head
        + p.des_flow * p.des_head * (1 - p.motor_efficiency)
            * p.motor_inefficiency_to_fluid := by
  constructor
  · simp [Pump.get_loads]
  · intro x hx
    rw [Pump.get_loads] at hx
    have := List.eq_of_mem_replicate hx
    rw [this]

/-- Witness for C4 (amended) at a concrete pump. -/
theorem pump_get_loads_spec_witness :
    (Pump.get_loads ⟨2, 3, 1/2, 1/4⟩ 2).length = 2 ∧
    ∀ x ∈ Pump.get_loads ⟨2, 3, 1/2, 1/4⟩ 2,
      x = 2 * 3 + 2 * 3 * (1 - 1/2) * (1/4) :=
  pump_get_loads_spec ⟨2, 3, 1/2, 1/4⟩ 2

/-- A three-component loop in code order: the primary pump, one GHE, one
building ETS with constant load 7. -/
def upstreamExampleNetwork : List Component :=
  [⟨ComponentType.PUMP, 0, fun _ => 0⟩,
   ⟨ComponentType.GROUNDHEATEXCHANGER, 1, fun _ => 0⟩,
   ⟨ComponentType.ENERGYTRANSFERSTATION, 0, fun _ => 7⟩]

/-- **C2 counterexample**: in the network `[PUMP, GHE, ETS]` the only
segment is `network[:1] = [PUMP]`, so the segments together with the GHE
positions cover 2 of the 3 components: the ETS after the last GHE is in
no segment, its load is absent from every assigned array, and the claimed
gap-free cover of the whole sequence fails. -/
theorem size_to_upstream_coverage_counterexample :
    (upstream_covered upstreamExampleNetwork none (ghe_indexes upstreamExampleNetwork)).length = 2 ∧
    upstreamExampleNetwork.length = 3 ∧
    ((size_to_upstream_equipment upstreamExampleNetwork).map (fun a => a 0)).sum = 0 ∧
    total_network_loads upstreamExampleNetwork 0 = 7 := by
  refine ⟨rfl, rfl, ?_, ?_⟩
  · show ((0 : ℚ) + 0) + 0 = 0
    norm_num
  · show (0 : ℚ) + (7 + 0) = 7
    norm_num

/-- **C2 (amended)**: `size_to_upstream_equipment` assigns each GHE the
elementwise sum of `get_loads()` over the components strictly between the
previous GHE and it (from the start of the sequence for the first GHE),
and the per-GHE segments together with the GHE positions cover, exactly
once and in order, precisely the components up to and including the last
GHE: components after the last GHE belong to no segment. -/
theorem size_to_upstream_partition (net : List Component) (L : ℕ)
    (hlast : (ghe_indexes net).getLast? = some L) :
    size_to_upstream_equipment net
      = (upstream_segments_aux net none (ghe_indexes net)).map
          (fun seg h => (seg.map (fun c => c.loads h)).sum) ∧
    upstream_covered net none (ghe_indexes net) = net.take (L + 1) := by
  refine ⟨rfl, ?_⟩
  rcases hg : ghe_indexes net with _ | ⟨i, rest⟩
  · rw [hg] at hlast
    simp at hlast
  · rw [hg] at hlast
    rcases rest with _ | ⟨j, rest'⟩
    · have hLi : i = L := by simpa using hlast
      subst hLi
      rw [show upstream_covered net none [i]
          = pySlice net 0 i ++ pySlice net i (i + 1) ++ upstream_covered net (some i) []
          from rfl]
      rw [show upstream_covered net (some i) ([] : List ℕ) = [] from rfl, List.append_nil]
      rw [pySlice_append net 0 i (i + 1) (by omega) (by omega)]
      rw [pySlice, List.drop_zero]
    · have hch : List.Chain (· < ·) i (j :: rest') := by
        have h0 : List.Chain' (· < ·) (ghe_indexes net) := ghe_indexes_aux_chain' net 0
        rw [hg] at h0
        exact h0
      have hL' : (j :: rest').getLast? = some L := by simpa using hlast
      have ih := upstream_covered_some net (j :: rest') i L hch hL'
      have hiL : i < L := by
        rw [List.chain_iff_pairwise] at hch
        refine (List.pairwise_cons.mp hch).1 L ?_
        have := List.mem_getLast?_eq_getLast (l := j :: rest') (x := L) (by simpa using hL')
        obtain ⟨hne, hgl⟩ := this
        rw [hgl]
        exact List.getLast_mem hne
      rw [show upstream_covered net none (i :: j :: rest')
          = pySlice net 0 i ++ pySlice net i (i + 1)
              ++ upstream_covered net (some i) (j :: rest')
          from rfl]
      rw [ih, pySlice_append net 0 i (i + 1) (by omega) (by omega),
        pySlice_append net 0 (i + 1) (L + 1) (by omega) (by omega)]
      rw [pySlice, List.drop_zero]

/-- Witness for C2 (amended) on the `[PUMP, GHE, ETS]` network: the last
GHE index is 1 and the covered components are the first two. -/
theorem size_to_upstream_partition_witness :
    (ghe_indexes upstreamExampleNetwork).getLast? = some 1 ∧
    (size_to_upstream_equipment upstreamExampleNetwork
      = (upstream_segments_aux upstreamExampleNetwork none
          (ghe_indexes upstreamExampleNetwork)).map
          (fun seg h => (seg.map (fun c => c.loads h)).sum) ∧
    upstream_covered upstreamExampleNetwork none (ghe_indexes upstreamExampleNetwork)
      = upstreamExampleNetwork.take 2) :=
  ⟨rfl, size_to_upstream_partition upstreamExampleNetwork 1 rfl⟩

/-- A 3-node loop `A → B → C → A` where `A` is the Ground Heat Exchanger
and `B` carries the loop-start flag. -/
def loopExampleFeatures : List GeoFeature :=
  [⟨"A", some "Ground Heat Exchanger", false⟩, ⟨"B", none, true⟩, ⟨"C", none, false⟩]

/-- **C6 counterexample**: in the 3-node loop `[A, B, C]` where `A` is
the Ground Heat Exchanger and `B` carries the loop-start flag, the code
ignores the flag and rotates to the first GHE, returning `[A, B, C]`, not
the claimed `[B, C, A]`. -/
theorem reorder_connected_features_counterexample :
    GeoFeature.start_loop ⟨"B", none, true⟩ = true ∧
    reorder_connected_features loopExampleFeatures = Except.ok loopExampleFeatures ∧
    reorder_connected_features loopExampleFeatures
      ≠ Except.ok
          ([⟨"B", none, true⟩, ⟨"C", none, false⟩,
            ⟨"A", some "Ground Heat Exchanger", false⟩] : List GeoFeature) := by
  refine ⟨rfl, rfl, ?_⟩
  intro h
  rw [show reorder_connected_features loopExampleFeatures = Except.ok loopExampleFeatures
    from rfl] at h
  rw [loopExampleFeatures] at h
  simp only [Except.ok.injEq, List.cons.injEq, GeoFeature.mk.injEq] at h
  exact absurd h.1.1 (by decide)

/-- **C6 (amended)**: `reorder_connected_features` rotates the feature
list (`features[i:] + features[:i]`) to the index `i` of the first
feature whose `district_system_type` is `"Ground Heat Exchanger"`,
ignoring any loop-start flag, so element 0 is that first GHE and the
cyclic order is preserved; it raises `ValueError` when no GHE feature
exists. -/
theorem reorder_connected_features_spec (features : List GeoFeature) (i : ℕ)
    (hi : find_start_loop_index features = some i) :
    reorder_connected_features features
      = Except.ok (features.drop i ++ features.take i) ∧
    (features.drop i ++ features.take i).head? = features.get? i ∧
    (∀ f ∈ features.take i, f.district_system_type ≠ some "Ground Heat Exchanger") ∧
    (∀ f, features.get? i = some f →
      f.district_system_type = some "Ground Heat Exchanger") ∧
    ∀ l : List GeoFeature, find_start_loop_index l = none →
      reorder_connected_features l
        = Except.error "No Ground Heat Exchanger was found in the list." := by
  obtain ⟨hlt, htake, hget⟩ := find_start_loop_index_some features i hi
  refine ⟨?_, ?_, htake, hget, ?_⟩
  · rw [reorder_connected_features, hi]
  · have h1 : (features.drop i).head? = features.get? i := by
      rw [List.head?_drop, List.get?_eq_getElem?]
    have h2 : features.drop i ≠ [] := by
      intro hh
      have := List.drop_eq_nil_iff.mp hh
      omega
    rcases hd : features.drop i with _ | ⟨x, t⟩
    · exact absurd hd h2
    · rw [hd] at h1
      simpa using h1
  · intro l hl
    rw [reorder_connected_features, hl]

/-- Witness for C6 (amended) on the loop `[A(GHE), B, C]`: the first GHE
index is 0 and no GHE gives the error. -/
theorem reorder_connected_features_spec_witness :
    find_start_loop_index loopExampleFeatures = some 0 ∧
    (reorder_connected_features loopExampleFeatures
      = Except.ok (loopExampleFeatures.drop 0 ++ loopExampleFeatures.take 0) ∧
    (loopExampleFeatures.drop 0 ++ loopExampleFeatures.take 0).head?
      = loopExampleFeatures.get? 0 ∧
    (∀ f ∈ loopExampleFeatures.take 0,
      f.district_system_type ≠ some "Ground Heat Exchanger") ∧
    (∀ f, loopExampleFeatures.get? 0 = some f →
      f.district_system_type = some "Ground Heat Exchanger") ∧
    ∀ l : List GeoFeature, find_start_loop_index l = none →
      reorder_connected_features l
        = Except.error "No Ground Heat Exchanger was found in the list.") :=
  ⟨rfl, reorder_connected_features_spec loopExampleFeatures 0 rfl⟩

/-- **C5 counterexample**: a daily series of two samples (hours 0 and 24)
resamples, after the one-day duplication, to 49 hourly points, not 8760:
the claimed postcondition fails for series that do not span the year. -/
theorem make_loads_hourly_counterexample :
    (make_loads_hourly [(0, 1), (24, 2)]).length = 49 ∧ 49 ≠ HOURS_IN_YEAR := by
  constructor
  · decide
  · decide

/-- **C5 (amended)**: for a non-empty hour-aligned series whose last
sample is at least 8735 hours after its first (so that the series plus
the duplicated last row one day later spans at least 8760 hourly points),
`make_loads_hourly` returns exactly `HOURS_IN_YEAR` values, produced by
linear interpolation with the last value duplicated one day past the
series end; shorter series yield fewer than 8760 values. -/
theorem make_loads_hourly_full_year (p : ℕ × ℚ) (rest : List (ℕ × ℚ))
    (hspan : p.1 + 8735 ≤ ((p :: rest).getLastD p).1) :
    (make_loads_hourly (p :: rest)).length = HOURS_IN_YEAR := by
  rcases p with ⟨t0, v0⟩
  rw [make_loads_hourly, List.length_take]
  rw [show ((t0, v0) :: rest)
        ++ [((((t0, v0) :: rest).getLastD (t0, v0)).1 + 24,
             (((t0, v0) :: rest).getLastD (t0, v0)).2)]
      = (t0, v0) :: (rest
        ++ [((((t0, v0) :: rest).getLastD (t0, v0)).1 + 24,
             (((t0, v0) :: rest).getLastD (t0, v0)).2)]) from rfl]
  rw [resample_hourly, List.length_map, List.length_range]
  have hgl : ((t0, v0) :: (rest
      ++ [((((t0, v0) :: rest).getLastD (t0, v0)).1 + 24,
           (((t0, v0) :: rest).getLastD (t0, v0)).2)])).getLastD (t0, v0)
      = ((((t0, v0) :: rest).getLastD (t0, v0)).1 + 24,
         (((t0, v0) :: rest).getLastD (t0, v0)).2) := by
    rw [List.getLastD_eq_getLast?]
    rw [show (t0, v0) :: (rest
        ++ [((((t0, v0) :: rest).getLastD (t0, v0)).1 + 24,
             (((t0, v0) :: rest).getLastD (t0, v0)).2)])
      = ((t0, v0) :: rest)
        ++ [((((t0, v0) :: rest).getLastD (t0, v0)).1 + 24,
             (((t0, v0) :: rest).getLastD (t0, v0)).2)] from rfl]
    rw [List.getLast?_concat]
    rfl
  rw [hgl]
  simp only [HOURS_IN_YEAR]
  omega

/-- Witness for C5 (amended): a series with samples at hours 0 and 8760
spans the year and resamples to exactly 8760 values. -/
theorem make_loads_hourly_full_year_witness :
    ((0:ℕ), (5:ℚ)).1 + 8735 ≤ ((((0:ℕ), (5:ℚ)) :: [((8760:ℕ), (5:ℚ))]).getLastD (0, 5)).1 ∧
    (make_loads_hourly [(0, 5), (8760, 5)]).length = HOURS_IN_YEAR :=
  ⟨by decide, make_loads_hourly_full_year (0, 5) [(8760, 5)] (by decide)⟩

/-- **C9 counterexample**: with a non-negative constant waste-heat rate
`3` and an original load of `-5` (a net heat-rejection hour), the
adjusted load is `max (-5 - 3) 0 = 0`, which exceeds the original load:
the clamp raises negative loads to zero, so "never exceeds the original
load" fails. -/
theorem add_waste_heat_sources_counterexample :
    (0:ℚ) ≤ 3 ∧
    ¬ add_waste_heat_sources (.constantRate 3) (fun _ => -5) 0 ≤ (-5 : ℚ) := by
  constructor
  · norm_num
  · rw [add_waste_heat_sources]
    norm_num

/-- **C9 (amended)**: `add_waste_heat_sources` leaves the loads
unchanged when the rate is missing or not a valid number; for a constant
or schedule rate every hour becomes `max (load - waste_heat) 0`, which is
never negative, and which never exceeds the original load provided the
original load is non-negative (negative loads are clamped up to zero). -/
theorem add_waste_heat_sources_spec (loads : ℕ → ℚ) (w : ℚ) (ws : ℕ → ℚ) (h : ℕ)
    (hw : 0 ≤ w) :
    add_waste_heat_sources .missing loads = loads ∧
    add_waste_heat_sources .invalidNumber loads = loads ∧
    add_waste_heat_sources (.constantRate w) loads h = max (loads h - w) 0 ∧
    add_waste_heat_sources (.scheduleFile ws) loads h = max (loads h - ws h) 0 ∧
    0 ≤ add_waste_heat_sources (.constantRate w) loads h ∧
    (0 ≤ loads h → add_waste_heat_sources (.constantRate w) loads h ≤ loads h) := by
  refine ⟨rfl, rfl, rfl, rfl, le_max_right _ _, fun h0 => ?_⟩
  rw [add_waste_heat_sources]
  exact max_le (by linarith) h0

/-- Witness for C9 (amended) at `w = 3`, constant loads `10`. -/
theorem add_waste_heat_sources_spec_witness :
    (0:ℚ) ≤ 3 ∧
    (add_waste_heat_sources .missing (fun _ => 10) = (fun _ => (10:ℚ)) ∧
    add_waste_heat_sources .invalidNumber (fun _ => 10) = (fun _ => (10:ℚ)) ∧
    add_waste_heat_sources (.constantRate 3) (fun _ => 10) 0 = max (10 - 3) 0 ∧
    add_waste_heat_sources (.scheduleFile fun _ => 1) (fun _ => 10) 0 = max (10 - 1) 0 ∧
    0 ≤ add_waste_heat_sources (.constantRate 3) (fun _ => 10) 0 ∧
    (0 ≤ (10:ℚ) → add_waste_heat_sources (.constantRate 3) (fun _ => 10) 0 ≤ 10)) :=
  ⟨by norm_num, add_waste_heat_sources_spec (fun _ => 10) 3 (fun _ => 1) 0 (by norm_num)⟩

/-- **C1**: when every GHE has positive area, the elementwise sum of the
load arrays assigned by `size_area_proportional` equals the (waste-heat
adjusted) total network load at every hour: each GHE receives
`total_load * (area / total_area)` and the area ratios sum to one. -/
theorem size_area_proportional_conserves_load (network : List Component)
    (rate : HeatSourceRate) (h : ℕ)
    (hne : network.filter isGhe ≠ [])
    (hpos : ∀ c ∈ network.filter isGhe, 0 < c.area) :
    ((size_area_proportional network rate).map (fun a => a h)).sum
      = add_waste_heat_sources rate (total_network_loads network) h := by
  have hA : 0 < total_ghe_area network := by
    rw [total_ghe_area]
    apply List.sum_pos
    · intro x hx
      rw [List.mem_map] at hx
      obtain ⟨c, hc, rfl⟩ := hx
      exact hpos c hc
    · simpa using hne
  rw [size_area_proportional, List.map_map]
  have : ((network.filter isGhe).map
      ((fun a => a h) ∘ fun c =>
        area_proportional_assigned_load
          (add_waste_heat_sources rate (total_network_loads network))
          (total_ghe_area network) c.area)).sum
      = ((network.filter isGhe).map (fun c =>
          add_waste_heat_sources rate (total_network_loads network) h
            / total_ghe_area network * c.area)).sum := by
    rfl
  rw [this]
  have hfact : ((network.filter isGhe).map (fun c =>
      add_waste_heat_sources rate (total_network_loads network) h
        / total_ghe_area network * c.area)).sum
      = add_waste_heat_sources rate (total_network_loads network) h
          / total_ghe_area network
        * ((network.filter isGhe).map Component.area).sum := by
    induction network.filter isGhe with
    | nil => simp
    | cons c cs ih => simp [ih]; ring
  rw [hfact]
  rw [show ((network.filter isGhe).map Component.area).sum = total_ghe_area network from rfl]
  exact div_mul_cancel₀ _ hA.ne'

/-- Witness for C1: one ETS with constant load `6` and two GHEs of areas
`2` and `1`; the assigned loads sum back to the total at hour 0. -/
theorem size_area_proportional_conserves_load_witness :
    (List.filter isGhe
        [⟨ComponentType.ENERGYTRANSFERSTATION, 0, fun _ => 6⟩,
         ⟨ComponentType.GROUNDHEATEXCHANGER, 2, fun _ => 0⟩,
         ⟨ComponentType.GROUNDHEATEXCHANGER, 1, fun _ => 0⟩] ≠ []) ∧
    ((size_area_proportional
        [⟨ComponentType.ENERGYTRANSFERSTATION, 0, fun _ => 6⟩,
         ⟨ComponentType.GROUNDHEATEXCHANGER, 2, fun _ => 0⟩,
         ⟨ComponentType.GROUNDHEATEXCHANGER, 1, fun _ => 0⟩] .missing).map
      (fun a => a 0)).sum
      = add_waste_heat_sources .missing
          (total_network_loads
            [⟨ComponentType.ENERGYTRANSFERSTATION, 0, fun _ => 6⟩,
             ⟨ComponentType.GROUNDHEATEXCHANGER, 2, fun _ => 0⟩,
             ⟨ComponentType.GROUNDHEATEXCHANGER, 1, fun _ => 0⟩]) 0 := by
  refine ⟨?_, size_area_proportional_conserves_load _ .missing 0 ?_ ?_⟩
  · simp [List.filter, isGhe]
  · simp [List.filter, isGhe]
  · intro c hc
    simp [List.filter, isGhe] at hc
    rcases hc with h1 | h1 <;> rw [h1] <;> norm_num

/-- **C8**: `friction_factor` is `64 / Re` for `Re < 2000`, the Petukhov
correlation `(0.79 ln Re - 1.64)^(-2)` for `Re > 4000`, and for
`2000 ≤ Re ≤ 4000` the sigmoid blend of the laminar and turbulent values
at that `Re`, which lies between the two blended values; for `Re > 4000`
it is monotonically non-increasing in `Re`. -/
theorem friction_factor_spec :
    (∀ r : ℝ, 0 < r → r < 2000 → friction_factor r = 64 / r) ∧
    (∀ r : ℝ, r > 4000 → friction_factor r = ((0.79 * Real.log r - 1.64) ^ 2)⁻¹) ∧
    (∀ r : ℝ, 2000 ≤ r → r ≤ 4000 →
      friction_factor r
        = smoothing_function r 2000 4000 (laminar_friction_factor r)
            (turbulent_friction_factor r) ∧
      min (laminar_friction_factor r) (turbulent_friction_factor r) ≤ friction_factor r ∧
      friction_factor r ≤ max (laminar_friction_factor r) (turbulent_friction_factor r)) ∧
    (∀ r s : ℝ, 4000 < r → r ≤ s → friction_factor s ≤ friction_factor r) := by
  refine ⟨?_, ?_, ?_, ?_⟩
  · intro r _ h2
    rw [friction_factor, if_pos h2]
    rfl
  · intro r h4
    rw [friction_factor, if_neg (by linarith), if_pos h4]
    rfl
  · intro r hlo hhi
    have heq : friction_factor r
        = smoothing_function r 2000 4000 (laminar_friction_factor r)
            (turbulent_friction_factor r) := by
      rw [friction_factor, if_neg (by linarith), if_neg (by linarith)]
    refine ⟨heq, ?_, ?_⟩
    · rw [heq]
      exact (smoothing_function_mem r 2000 4000 _ _).1
    · rw [heq]
      exact (smoothing_function_mem r 2000 4000 _ _).2
  · intro r s hr hrs
    have hs4 : (4000:ℝ) < s := lt_of_lt_of_le hr hrs
    have hfr : friction_factor r = turbulent_friction_factor r := by
      rw [friction_factor, if_neg (by linarith), if_pos hr]
    have hfs : friction_factor s = turbulent_friction_factor s := by
      rw [friction_factor, if_neg (by linarith), if_pos hs4]
    rw [hfr, hfs, turbulent_friction_factor, turbulent_friction_factor]
    have hlr : Real.log 4000 ≤ Real.log r := Real.log_le_log (by norm_num) hr.le
    have hlrs : Real.log r ≤ Real.log s := Real.log_le_log (by linarith) hrs
    have hl3 := log_4000_gt_three
    have hbr : 0 < 0.79 * Real.log r - 1.64 := by nlinarith
    have hbs : 0.79 * Real.log r - 1.64 ≤ 0.79 * Real.log s - 1.64 := by linarith
    apply inv_anti₀
    · positivity
    · exact pow_le_pow_left₀ hbr.le hbs 2

/-- Witness for C8 at `Re = 1000` (laminar), `Re = 5000` (turbulent),
`Re = 3000` (blend) and the pair `5000 ≤ 6000` (monotone). -/
theorem friction_factor_spec_witness :
    ((0:ℝ) < 1000 ∧ (1000:ℝ) < 2000 ∧ friction_factor 1000 = 64 / 1000) ∧
    ((5000:ℝ) > 4000 ∧ friction_factor 5000 = ((0.79 * Real.log 5000 - 1.64) ^ 2)⁻¹) ∧
    ((2000:ℝ) ≤ 3000 ∧ (3000:ℝ) ≤ 4000 ∧
      min (laminar_friction_factor 3000) (turbulent_friction_factor 3000)
        ≤ friction_factor 3000) ∧
    ((4000:ℝ) < 5000 ∧ (5000:ℝ) ≤ 6000 ∧ friction_factor 6000 ≤ friction_factor 5000) :=
  ⟨⟨by norm_num, by norm_num, friction_factor_spec.1 1000 (by norm_num) (by norm_num)⟩,
   ⟨by norm_num, friction_factor_spec.2.1 5000 (by norm_num)⟩,
   ⟨by norm_num, by norm_num,
    (friction_factor_spec.2.2.1 3000 (by norm_num) (by norm_num)).2.1⟩,
   ⟨by norm_num, by norm_num,
    friction_factor_spec.2.2.2 5000 6000 (by norm_num) (by norm_num)⟩⟩

/-- **C10**: `pressure_loss` returns exactly 0 for every non-positive
volumetric flow (the Reynolds/velocity computations are never reached),
and is non-negative for every flow whenever the physical parameters are
non-negative (viscosity positive), so pressure loss is defined and
non-negative for all flow inputs including zero and negative flows. -/
theorem pressure_loss_spec (p : Pipe) (di vol_flow_rate : ℝ) :
    (vol_flow_rate ≤ 0 → pressure_loss p di vol_flow_rate = 0) ∧
    (0 ≤ p.density → 0 < p.viscosity → 0 ≤ p.length → 0 ≤ di →
      0 ≤ pressure_loss p di vol_flow_rate) := by
  constructor
  · intro h
    rw [pressure_loss, if_pos h]
  · intro hd hμ hL hdi
    rw [pressure_loss]
    split_ifs with h
    · exact le_refl 0
    · have hflow : 0 < vol_flow_rate := not_le.mp h
      have hv : 0 ≤ vol_flow_rate_to_velocity di vol_flow_rate := by
        rw [vol_flow_rate_to_velocity]
        apply div_nonneg hflow.le
        have := Real.pi_pos
        positivity
      have hre : 0 ≤ vol_flow_rate_to_re p di vol_flow_rate := by
        rw [vol_flow_rate_to_re]
        exact div_nonneg (mul_nonneg (mul_nonneg hd hv) hdi) hμ.le
      have hf := friction_factor_nonneg _ hre
      apply mul_nonneg
      · exact div_nonneg (mul_nonneg hf hL) hdi
      · exact div_nonneg (mul_nonneg hd (sq_nonneg _)) (by norm_num)

/-- Witness for C10: a concrete pipe (SDR 11, 100 m, water-like density
and viscosity), inner diameter 0.1 m, flow -1 m³/s. -/
theorem pressure_loss_spec_witness :
    pressure_loss ⟨11, 100, 1000, 1/1000⟩ (1/10) (-1) = 0 ∧
    0 ≤ pressure_loss ⟨11, 100, 1000, 1/1000⟩ (1/10) (-1) :=
  ⟨(pressure_loss_spec ⟨11, 100, 1000, 1/1000⟩ (1/10) (-1)).1 (by norm_num),
   (pressure_loss_spec ⟨11, 100, 1000, 1/1000⟩ (1/10) (-1)).2 (by norm_num) (by norm_num)
     (by norm_num) (by norm_num)⟩

lemma bisection_search_nonpos_flow (p : Pipe) (vol_flow_rate target : ℝ)
    (hflow : vol_flow_rate ≤ 0) (ht : ¬ |(0:ℝ) - target| ≤ 0.1) :
    ∀ (fuel : ℕ) (low high : ℝ), bisection_search p vol_flow_rate target fuel low high = none
  | 0, _, _ => rfl
  | fuel + 1, low, high => by
    rw [bisection_search]
    have hz : pressure_loss_per_length p vol_flow_rate ((low + high) / 2) = 0 := by
      rw [pressure_loss_per_length, pressure_loss, if_pos hflow, zero_div]
    rw [hz, if_neg ht]
    split_ifs
    · exact bisection_search_nonpos_flow p vol_flow_rate target hflow ht fuel _ _
    · exact bisection_search_nonpos_flow p vol_flow_rate target hflow ht fuel _ _

/-- **C7 counterexample**: at zero volumetric flow the per-length
pressure loss is 0 for every diameter, so with the default 300 Pa/m
target the continuous-mode bisection loop never meets its exit condition:
it does not terminate, for any number of iterations, contradicting the
claim that the bisection search terminates with an in-tolerance
diameter. -/
theorem size_hydraulic_diameter_counterexample :
    ¬ ∃ (fuel : ℕ) (d : ℝ),
      bisection_search ⟨11, 100, 1000, 1/1000⟩ 0 300 fuel 0.025 0.5 = some d := by
  rintro ⟨fuel, d, hd⟩
  rw [bisection_search_nonpos_flow ⟨11, 100, 1000, 1/1000⟩ 0 300 le_rfl ?_ fuel 0.025 0.5] at hd
  · exact Option.noConfusion hd
  · rw [zero_sub, abs_neg, abs_of_nonneg (by norm_num : (0:ℝ) ≤ 300)]
    norm_num

/-- **C7 (amended)**: in discrete mode the catalog scan returns the inner
diameter of the first catalog outer diameter whose per-length pressure
loss is strictly below the target (the `find?` of the ascending catalog),
falling back, after a logged warning, to the largest catalog size when no
size qualifies; in continuous mode, whenever the bisection loop exits it
returns a diameter whose per-length pressure loss is within 0.1 Pa/m of
the target — but for non-positive flow the loop never exits. -/
theorem size_hydraulic_diameter_spec (p : Pipe) (vol_flow_rate target : ℝ) :
    (∀ l : List ℝ, discrete_size_scan p vol_flow_rate target l
        = (l.find? (fun d =>
            pressure_loss_per_length p vol_flow_rate (inch_to_m d) < target)).map
            (fun od => inner_diameter p (inch_to_m od))) ∧
    (∀ di, discrete_size_scan p vol_flow_rate target ip_pipes_outside_diameter = some di →
      size_hydraulic_diameter_discrete p vol_flow_rate target = di) ∧
    (discrete_size_scan p vol_flow_rate target ip_pipes_outside_diameter = none →
      size_hydraulic_diameter_discrete p vol_flow_rate target
        = inner_diameter p (inch_to_m (ip_pipes_outside_diameter.getLastD 0))) ∧
    (∀ (fuel : ℕ) (low high d : ℝ),
      bisection_search p vol_flow_rate target fuel low high = some d →
      |pressure_loss_per_length p vol_flow_rate d - target| ≤ 0.1) := by
  refine ⟨?_, ?_, ?_, ?_⟩
  · intro l
    induction l with
    | nil => rfl
    | cons d rest ih =>
      rw [discrete_size_scan]
      by_cases hc : pressure_loss_per_length p vol_flow_rate (inch_to_m d) < target
      · rw [if_pos hc, List.find?_cons_of_pos _ (by simpa using hc)]
        rfl
      · rw [if_neg hc, List.find?_cons_of_neg _ (by simpa using hc), ih]
  · intro di h
    simp only [size_hydraulic_diameter_discrete, h]
  · intro h
    simp only [size_hydraulic_diameter_discrete, h]
  · intro fuel
    induction fuel with
    | zero =>
      intro low high d hd
      exact Option.noConfusion hd
    | succ n ih =>
      intro low high d hd
      rw [bisection_search] at hd
      split_ifs at hd with h1 h2
      · exact (Option.some.inj hd) ▸ h1
      · exact ih _ _ _ hd
      · exact ih _ _ _ hd

/-- Witness for C7 (amended): the empty-catalog scan instance, and a
bisection run at zero flow with target 0, which exits on the first
iteration within tolerance. -/
theorem size_hydraulic_diameter_spec_witness :
    (discrete_size_scan ⟨11, 100, 1000, 1/1000⟩ 0 0 ([] : List ℝ)
      = (([] : List ℝ).find? (fun d =>
          pressure_loss_per_length ⟨11, 100, 1000, 1/1000⟩ 0 (inch_to_m d) < 0)).map
          (fun od => inner_diameter ⟨11, 100, 1000, 1/1000⟩ (inch_to_m od))) ∧
    |pressure_loss_per_length ⟨11, 100, 1000, 1/1000⟩ 0 ((0.025 + 0.5) / 2) - 0| ≤ 0.1 := by
  have hb : bisection_search ⟨11, 100, 1000, 1/1000⟩ 0 0 (0 + 1) 0.025 0.5
      = some ((0.025 + 0.5) / 2) := by
    rw [bisection_search]
    have hz : pressure_loss_per_length ⟨11, 100, 1000, 1/1000⟩ 0 ((0.025 + 0.5) / 2) = 0 := by
      rw [pressure_loss_per_length, pressure_loss, if_pos le_rfl, zero_div]
    rw [hz, if_pos (by norm_num : |(0:ℝ) - 0| ≤ 0.1)]
  exact ⟨(size_hydraulic_diameter_spec ⟨11, 100, 1000, 1/1000⟩ 0 0).1 [],
    (size_hydraulic_diameter_spec ⟨11, 100, 1000, 1/1000⟩ 0 0).2.2.2 (0 + 1) 0.025 0.5 _ hb⟩

end ThermalNetwork
